import Mathlib

/-!
# PolyDB core: shallow embedding and verification

A shallow embedding of the core of the `polydb` data-access engine
(query builder and its two translations, overflow-aware generic
storage engine, hash-chained audit ledger, orchestrator pre-processing)
together with proofs and refutations of the specified properties.

Modelling conventions:
* Python JSON scalar values are modelled by `PolyDB.JVal`
  (null / bool / int / string).  Records (`dict`s produced by
  `json.loads`) are association lists `PolyDB.JsonDict`.
* Python stdlib collaborators (`json.dumps` / `json.loads`,
  `hashlib.md5`) are taken as parameters (`serialize`, `parse`,
  `digest`): they are external to the repository, only their
  round-trip / content-digest contracts matter to the claims.
* `sorted` (guaranteed stable by Python) is modelled by
  `List.mergeSort`, which is stable.
* Python exceptions surface as `Except String`.
* Heterogeneous `<`/`>` comparisons raise `TypeError` in Python
  (aborting the query); in the Bool-valued comparison functions used
  by filters those cases are modelled as `false`, and the total order
  used for sort keys completes the comparable classes with an
  arbitrary consistent ranking.  No claim depends on those cases.
-/

namespace PolyDB

open scoped List

/-- JSON scalar value as produced by `json.loads` for primitive fields.
Python bools compare numerically with ints (`True == 1`), which the
comparison functions below reproduce. -/
inductive JVal where
  | null : JVal
  | b : Bool → JVal
  | n : Int → JVal
  | s : String → JVal
deriving DecidableEq, Repr

/-- A record (`dict[str, Any]`) as an association list. -/
abbrev JsonDict := List (String × JVal)

/-- `item.get(field)`: `None` when the key is absent, which coincides
with JSON `null` (Python has a single `None`). -/
def jGet (d : JsonDict) (k : String) : JVal :=
  match d.find? (fun kv => kv.1 = k) with
  | some kv => kv.2
  | none => JVal.null

/-- `item.get(field, default)` with a non-`None` default. -/
def jGetD (d : JsonDict) (k : String) (v : JVal) : JVal :=
  match d.find? (fun kv => kv.1 = k) with
  | some kv => kv.2
  | none => v

/-- `dict.setdefault(k, v)`: insert only when the key is absent. -/
def jSetDefault (d : JsonDict) (k : String) (v : JVal) : JsonDict :=
  if (d.find? (fun kv => kv.1 = k)).isSome then d else d ++ [(k, v)]

/-- `k in dict`. -/
def jHas (d : JsonDict) (k : String) : Bool :=
  (d.find? (fun kv => kv.1 = k)).isSome

/-- `dict[k] = v`: update in place (keeping the key's position) when
present, append otherwise — Python dict assignment semantics. -/
def jSet (d : JsonDict) (k : String) (v : JVal) : JsonDict :=
  if (d.find? (fun kv => kv.1 = k)).isSome then
    d.map (fun kv => if kv.1 = k then (k, v) else kv)
  else d ++ [(k, v)]

/-- Python truthiness of a JSON scalar (`None`, `False`, `0`, `""` are falsy). -/
def jTruthy : JVal → Bool
  | JVal.null => false
  | JVal.b x => x
  | JVal.n x => x ≠ 0
  | JVal.s x => x ≠ ""

/-- Numeric value of the numeric class (Python bools are ints: `True == 1`). -/
def jNum : JVal → Int
  | JVal.b x => if x then 1 else 0
  | JVal.n x => x
  | _ => 0

/-- `str(value)` for scalars, as used by `CONTAINS`/`STARTS_WITH`/`ENDS_WITH`. -/
def pyStr : JVal → String
  | JVal.null => "None"
  | JVal.b x => if x then "True" else "False"
  | JVal.n x => toString x
  | JVal.s x => x

/-- Python `==` on scalars: structural except that bools equal their
numeric value (`True == 1`). -/
def pyEq : JVal → JVal → Bool
  | JVal.null, JVal.null => true
  | JVal.b x, JVal.b y => x = y
  | JVal.b x, JVal.n y => (if x then (1 : Int) else 0) = y
  | JVal.n x, JVal.b y => x = (if y then (1 : Int) else 0)
  | JVal.n x, JVal.n y => x = y
  | JVal.s x, JVal.s y => x = y
  | _, _ => false

/-- Python `<` on scalars: numeric within the numeric class (bool/int),
lexicographic on strings; incomparable pairs (which raise `TypeError`
in Python) are modelled as `false`. -/
def pyLt : JVal → JVal → Bool
  | JVal.b x, JVal.b y => jNum (JVal.b x) < jNum (JVal.b y)
  | JVal.b x, JVal.n y => jNum (JVal.b x) < y
  | JVal.n x, JVal.b y => x < jNum (JVal.b y)
  | JVal.n x, JVal.n y => x < y
  | JVal.s x, JVal.s y => x < y
  | _, _ => false

/-- Rank of the comparison class used to complete the sort-key order:
null < numeric (bool/int) < string. -/
def jRank : JVal → Nat
  | JVal.null => 0
  | JVal.b _ => 1
  | JVal.n _ => 1
  | JVal.s _ => 2

/-- String projection for the string class. -/
def jStr : JVal → String
  | JVal.s x => x
  | _ => ""

/-- `s.startswith(p)` (character-list level, so that it evaluates). -/
def strStartsWith (s p : String) : Bool :=
  p.toList.isPrefixOf s.toList

/-- `s.endswith(p)`. -/
def strEndsWith (s p : String) : Bool :=
  p.toList.isSuffixOf s.toList

/-- `int(s)` on the canonically formatted non-negative tokens the
pagination code produces (`str(offset + page_size)`). -/
def strToNat (s : String) : Option Nat :=
  if s ≠ "" && s.toList.all Char.isDigit then
    some (s.toList.foldl (fun acc c => acc * 10 + (c.toNat - 48)) 0)
  else none

/-- Total `≤` on sort-key values: Python's `<=` within each comparable
class (numeric, string), completed across classes by `jRank` (Python
raises `TypeError` there; sorting such data aborts the query, so the
completion is unobservable for data Python can sort). -/
def jvalLe (x y : JVal) : Bool :=
  if jRank x = jRank y then
    if jRank x = 1 then jNum x ≤ jNum y
    else if jRank x = 2 then jStr x ≤ jStr y
    else true
  else jRank x < jRank y

/-- Transitivity of a Bool-valued comparator. -/
def TransB (le : α → α → Bool) : Prop :=
  ∀ a b c, le a b = true → le b c = true → le a c = true

/-- Totality of a Bool-valued comparator. -/
def TotalB (le : α → α → Bool) : Prop :=
  ∀ a b, le a b || le b a

/-! ## Query representation (`src/polydb/query.py`) -/

/-- `Operator` enum. -/
inductive Operator where
  | EQ | NE | GT | GTE | LT | LTE
  | IN | NOT_IN | CONTAINS | STARTS_WITH | ENDS_WITH
deriving DecidableEq, Repr

/-- A filter value: a scalar for most operators, a list for
`IN`/`NOT_IN` (dynamically typed in Python). -/
inductive FVal where
  | v : JVal → FVal
  | list : List JVal → FVal
deriving DecidableEq, Repr

/-- `QueryFilter` dataclass. -/
structure QueryFilter where
  field : String
  operator : Operator
  value : FVal
deriving DecidableEq, Repr

/-- `QueryBuilder` dataclass (defaults as in the source). -/
structure QueryBuilder where
  filters : List QueryFilter := []
  order_by_fields : List (String × Bool) := []
  skip_count : Nat := 0
  take_count : Option Nat := none
  select_fields : Option (List String) := none
  group_by_fields : Option (List String) := none
  distinct : Bool := false
  count_only : Bool := false
deriving Repr

namespace QueryBuilder

/-- `where(field, operator, value)` appends a filter. -/
def addWhere (b : QueryBuilder) (field : String) (op : Operator) (value : FVal) :
    QueryBuilder :=
  { b with filters := b.filters ++ [⟨field, op, value⟩] }

/-- `order_by(field, descending)` appends a sort key. -/
def addOrderBy (b : QueryBuilder) (field : String) (descending : Bool := false) :
    QueryBuilder :=
  { b with order_by_fields := b.order_by_fields ++ [(field, descending)] }

/-- `skip(count)`. -/
def setSkip (b : QueryBuilder) (count : Nat) : QueryBuilder :=
  { b with skip_count := count }

/-- `take(count)`. -/
def setTake (b : QueryBuilder) (count : Nat) : QueryBuilder :=
  { b with take_count := some count }

/-- `count()`. -/
def setCount (b : QueryBuilder) : QueryBuilder :=
  { b with count_only := true }

end QueryBuilder

/-- `str(value)` of a filter value (f-string interpolation in the
pattern-match operators). -/
def pyStrF : FVal → String
  | FVal.v x => pyStr x
  | FVal.list _ => "[...]"

/-- `len(value)` for the `IN`/`NOT_IN` placeholder expansion
(a non-sequence raises `TypeError` in Python; modelled as 0). -/
def fLen : FVal → Nat
  | FVal.v _ => 0
  | FVal.list xs => xs.length

/-- The clause text and parameters contributed by one filter in
`QueryBuilder.to_sql_where`.  Note the raw interpolation of `f.field`. -/
def filterClause (f : QueryFilter) : String × List JVal :=
  match f.operator with
  | Operator.EQ => (f.field ++ " = %s", [fParam f.value])
  | Operator.NE => (f.field ++ " != %s", [fParam f.value])
  | Operator.GT => (f.field ++ " > %s", [fParam f.value])
  | Operator.GTE => (f.field ++ " >= %s", [fParam f.value])
  | Operator.LT => (f.field ++ " < %s", [fParam f.value])
  | Operator.LTE => (f.field ++ " <= %s", [fParam f.value])
  | Operator.IN =>
      (f.field ++ " IN (" ++ String.intercalate "," (List.replicate (fLen f.value) "%s") ++ ")",
        fParams f.value)
  | Operator.NOT_IN =>
      (f.field ++ " NOT IN (" ++ String.intercalate "," (List.replicate (fLen f.value) "%s") ++ ")",
        fParams f.value)
  | Operator.CONTAINS => (f.field ++ " LIKE %s", [JVal.s ("%" ++ pyStrF f.value ++ "%")])
  | Operator.STARTS_WITH => (f.field ++ " LIKE %s", [JVal.s (pyStrF f.value ++ "%")])
  | Operator.ENDS_WITH => (f.field ++ " LIKE %s", [JVal.s ("%" ++ pyStrF f.value)])
where
  /-- A scalar bound parameter. -/
  fParam : FVal → JVal
    | FVal.v x => x
    | FVal.list _ => JVal.null
  /-- `params.extend(f.value)` for `IN`/`NOT_IN`. -/
  fParams : FVal → List JVal
    | FVal.v _ => []
    | FVal.list xs => xs

/-- `QueryBuilder.to_sql_where`: AND-joined clauses in insertion order,
field names interpolated textually, values as parameters. -/
def toSqlWhere (b : QueryBuilder) : String × List JVal :=
  if b.filters = [] then ("", [])
  else
    let parts := b.filters.map filterClause
    (String.intercalate " AND " (parts.map Prod.fst), (parts.map Prod.snd).flatten)

/-! ## Identifier validators (`src/polydb/utils.py`) -/

/-- Character class of `^[a-zA-Z0-9_]+$`. -/
def isColumnChar (c : Char) : Bool :=
  (c ≥ 'a' && c ≤ 'z') || (c ≥ 'A' && c ≤ 'Z') || (c ≥ '0' && c ≤ '9') || c = '_'

/-- `validate_column_name`: full match of `^[a-zA-Z0-9_]+$`
(the `$`-before-trailing-newline corner of `re` is not modelled;
no claim depends on it).  Raises `ValidationError` otherwise. -/
def validateColumnName (column : String) : Except String String :=
  if column ≠ "" && column.toList.all isColumnChar then Except.ok column
  else Except.error ("Invalid column name: " ++ column)

/-- `validate_table_name`: as the column validator but the character
class additionally admits `-` (hyphen). -/
def validateTableName (table : String) : Except String String :=
  if table ≠ "" && table.toList.all (fun c => isColumnChar c || c = '-') then Except.ok table
  else Except.error ("Invalid table name: " ++ table)

/-! ## Relational translation
(`PostgreSQLAdapter.query_linq`, `src/polydb/adapters/PostgreSQLAdapter.py`) -/

/-- The SQL text and bound parameters built by
`PostgreSQLAdapter.query_linq` before `cursor.execute` (the network
round-trip itself is out of scope).  Identifier validation is
performed exactly where the source performs it: on the table name, the
select fields, the group-by fields and the order-by fields — the
filter fields of the WHERE clause come from `to_sql_where` unvalidated. -/
def buildLinqSql (table : String) (b : QueryBuilder) :
    Except String (String × List JVal) := do
  let table ← validateTableName table
  let base ←
    if b.count_only then
      pure ("SELECT COUNT(*) FROM " ++ table)
    else
      match b.select_fields with
      | some fields =>
        if fields ≠ [] then do
          let _ ← fields.mapM validateColumnName
          let fs := String.intercalate ", " fields
          pure ((if b.distinct then "SELECT DISTINCT " else "SELECT ") ++ fs ++ " FROM " ++ table)
        else pure ("SELECT * FROM " ++ table)
      | none => pure ("SELECT * FROM " ++ table)
  let (whereClause, whereParams) := toSqlWhere b
  let sql := if whereClause ≠ "" then base ++ " WHERE " ++ whereClause else base
  let sql ←
    match b.group_by_fields with
    | some gs =>
      if gs ≠ [] then do
        let _ ← gs.mapM validateColumnName
        pure (sql ++ " GROUP BY " ++ String.intercalate ", " gs)
      else pure sql
    | none => pure sql
  let sql ←
    if b.order_by_fields ≠ [] then do
      let _ ← b.order_by_fields.mapM (fun fd => validateColumnName fd.1)
      let parts := b.order_by_fields.map (fun fd => fd.1 ++ (if fd.2 then " DESC" else " ASC"))
      pure (sql ++ " ORDER BY " ++ String.intercalate ", " parts)
    else pure sql
  let (sql, params) :=
    match b.take_count with
    | some n => if n ≠ 0 then (sql ++ " LIMIT %s", whereParams ++ [JVal.n n]) else (sql, whereParams)
    | none => (sql, whereParams)
  let (sql, params) :=
    if b.skip_count ≠ 0 then (sql ++ " OFFSET %s", params ++ [JVal.n b.skip_count])
    else (sql, params)
  pure (sql, params)

/-! ## Overflow-aware generic engine
(`NoSQLKVAdapter`, `src/polydb/base/NoSQLKVAdapter.py`)

The secondary object store is a key → bytes map; bytes are `List Nat`.
`json.dumps`/`json.loads` and `hashlib.md5(...).hexdigest()` are stdlib
collaborators, passed as `serialize` / `parse` / `digest`. -/

/-- Bytes of a serialized payload. -/
abbrev Bytes := List Nat

/-- The secondary object store (`object_storage`): key → blob. -/
abbrev ObjStore := List (String × Bytes)

/-- `object_storage.put(key, data)` (overwrite semantics). -/
def osPut (os : ObjStore) (key : String) (data : Bytes) : ObjStore :=
  (key, data) :: os.filter (fun kv => kv.1 ≠ key)

/-- `object_storage.get(key)`. -/
def osGet (os : ObjStore) (key : String) : Option Bytes :=
  (os.find? (fun kv => kv.1 = key)).map Prod.snd

/-- `self.max_size = 1024 * 1024` (1 MiB). -/
def maxSize : Nat := 1024 * 1024

/-- `_check_overflow(data)`: serialize canonically; when the byte length
exceeds `max_size`, store the raw bytes under `overflow/{digest}.json`
in the object store and return the `OverflowReference` stub dict,
otherwise return the data unchanged.  Returns the (possibly updated)
object store alongside. -/
def checkOverflow (serialize : JsonDict → Bytes) (digest : Bytes → String)
    (os : ObjStore) (data : JsonDict) : JsonDict × ObjStore :=
  let dataBytes := serialize data
  if dataBytes.length > maxSize then
    let blobId := digest dataBytes
    let blobKey := "overflow/" ++ blobId ++ ".json"
    ([("_overflow", JVal.b true), ("_blob_key", JVal.s blobKey),
      ("_size", JVal.n dataBytes.length), ("_checksum", JVal.s blobId)],
      osPut os blobKey dataBytes)
  else (data, os)

/-- `_retrieve_overflow(data)`: pass through non-stubs; for a stub,
fetch the blob, parse it, recompute the digest and compare with the
stored `_checksum`; any failure (missing blob, parse error, checksum
mismatch) surfaces as a `StorageError` — the mismatch is raised inside
the `try` and re-wrapped by the catch-all `except`. -/
def retrieveOverflow (parse : Bytes → Option JsonDict) (digest : Bytes → String)
    (os : ObjStore) (data : JsonDict) : Except String JsonDict :=
  if !jTruthy (jGet data "_overflow") then Except.ok data
  else
    match jGet data "_blob_key" with
    | JVal.s blobKey =>
      match osGet os blobKey with
      | none => Except.error "Overflow retrieval failed: blob not found"
      | some blobData =>
        match parse blobData with
        | none => Except.error "Overflow retrieval failed: invalid JSON"
        | some retrieved =>
          if !pyEq (JVal.s (digest blobData)) (jGet data "_checksum") then
            Except.error "Overflow retrieval failed: Checksum mismatch on overflow retrieval"
          else Except.ok retrieved
    | _ => Except.error "Overflow retrieval failed: bad blob key"

/-- Does one filter admit the record?  Mirrors the per-operator
mismatch conditions of `_apply_filters` (with `value = item.get(f.field)`). -/
def filterPass (item : JsonDict) (f : QueryFilter) : Bool :=
  let value := jGet item f.field
  match f.operator, f.value with
  | Operator.EQ, fv => pyEqF value fv
  | Operator.NE, fv => !pyEqF value fv
  | Operator.GT, fv => jTruthy value && fLt fv value
  | Operator.GTE, fv => jTruthy value && (fLt fv value || pyEqF value fv)
  | Operator.LT, fv => jTruthy value && fGt fv value
  | Operator.LTE, fv => jTruthy value && (fGt fv value || pyEqF value fv)
  | Operator.IN, FVal.list xs => xs.any (fun x => pyEq value x)
  | Operator.IN, FVal.v _ => false
  | Operator.NOT_IN, FVal.list xs => !xs.any (fun x => pyEq value x)
  | Operator.NOT_IN, FVal.v _ => true
  | Operator.CONTAINS, FVal.v (JVal.s sub) =>
      jTruthy value && decide (sub.toList <:+: (pyStr value).toList)
  | Operator.CONTAINS, _ => false
  | Operator.STARTS_WITH, FVal.v (JVal.s p) =>
      jTruthy value && strStartsWith (pyStr value) p
  | Operator.STARTS_WITH, _ => false
  | Operator.ENDS_WITH, FVal.v (JVal.s p) =>
      jTruthy value && strEndsWith (pyStr value) p
  | Operator.ENDS_WITH, _ => false
where
  /-- `value == f.value` (a list filter value never equals a scalar). -/
  pyEqF (v : JVal) : FVal → Bool
    | FVal.v x => pyEq v x
    | FVal.list _ => false
  /-- `f.value < value` (scalar only; Python raises otherwise). -/
  fLt : FVal → JVal → Bool
    | FVal.v x, v => pyLt x v
    | FVal.list _, _ => false
  /-- `value < f.value`. -/
  fGt : FVal → JVal → Bool
    | FVal.v x, v => pyLt v x
    | FVal.list _, _ => false

/-- `_apply_filters`: per-record predicate scan (conjunction of all
filters; the source's early `break` is observationally the same). -/
def applyFilters (results : List JsonDict) (b : QueryBuilder) : List JsonDict :=
  if b.filters = [] then results
  else results.filter (fun item => b.filters.all (filterPass item))

/-- The sort key of one `sorted(results, key=lambda x: x.get(field, ''),
reverse=desc)` call: `≤`-comparison of `x.get(field, '')`, flipped for
`reverse=True` (Python's `reverse` keeps the sort stable). -/
def sortKeyLe (fd : String × Bool) (a b : JsonDict) : Bool :=
  if fd.2 then jvalLe (jGetD b fd.1 (JVal.s "")) (jGetD a fd.1 (JVal.s ""))
  else jvalLe (jGetD a fd.1 (JVal.s "")) (jGetD b fd.1 (JVal.s ""))

/-- `_apply_ordering`: one stable sort per sort key, iterating the
`order_by` list **in reverse** (`for field, desc in
reversed(builder.order_by_fields)`). -/
def applyOrdering (results : List JsonDict) (b : QueryBuilder) : List JsonDict :=
  if b.order_by_fields = [] then results
  else b.order_by_fields.reverse.foldl
    (fun res fd => res.mergeSort (sortKeyLe fd)) results

/-- `_apply_pagination`: `results[skip:]` then `results[:take]`
(Python truthiness: a zero/absent count is a no-op). -/
def applyPagination (results : List JsonDict) (b : QueryBuilder) : List JsonDict :=
  let results := if b.skip_count ≠ 0 then results.drop b.skip_count else results
  match b.take_count with
  | some n => if n ≠ 0 then results.take n else results
  | none => results

/-- `_apply_projection`: keep only the selected keys of each record. -/
def applyProjection (results : List JsonDict) (b : QueryBuilder) : List JsonDict :=
  match b.select_fields with
  | some fields =>
    if fields ≠ [] then
      results.map (fun item => item.filter (fun kv => fields.contains kv.1))
    else results
  | none => results

/-- The canonical dedup key `json.dumps(r, sort_keys=True)`: modelled
as the association list sorted by key (injective for the same data). -/
def canonKey (d : JsonDict) : JsonDict :=
  d.mergeSort (fun kv₁ kv₂ => kv₁.1 ≤ kv₂.1)

/-- The `distinct` dedup loop: first-seen order, key = canonical
serialization. -/
def dedupCanon (rows : List JsonDict) : List JsonDict :=
  go [] rows
where
  go (seen : List JsonDict) : List JsonDict → List JsonDict
    | [] => []
    | r :: rest =>
      let key := canonKey r
      if seen.contains key then go seen rest
      else r :: go (key :: seen) rest

/-- `query_linq(model, builder)`: fetch everything raw, resolve each
overflow stub, then filter → count short-circuit → order → paginate →
project → distinct. -/
def queryLinq (parse : Bytes → Option JsonDict) (digest : Bytes → String)
    (os : ObjStore) (raw : List JsonDict) (b : QueryBuilder) :
    Except String (Nat ⊕ List JsonDict) := do
  let results ← raw.mapM (retrieveOverflow parse digest os)
  let results := applyFilters results b
  if b.count_only then
    return Sum.inl results.length
  let results := applyOrdering results b
  let results := applyPagination results b
  let results := applyProjection results b
  let results := if b.distinct then dedupCanon results else results
  return Sum.inr results

/-- The primary key/value backend (`_put_raw`/`_get_raw`/`_query_raw`
target): (partition key, row key) → record. -/
abbrev KVStore := List ((String × String) × JsonDict)

/-- `_put_raw` modelled with upsert semantics (the adapter contract). -/
def kvPut (kv : KVStore) (pk rk : String) (d : JsonDict) : KVStore :=
  ((pk, rk), d) :: kv.filter (fun e => e.1 ≠ (pk, rk))

/-- `_get_raw`. -/
def kvGet (kv : KVStore) (pk rk : String) : Option JsonDict :=
  (kv.find? (fun e => e.1 = (pk, rk))).map Prod.snd

/-- `_get_pk_rk(model, data)` in the default configuration (no
`partition_config`, meta defaults `pk_field='id'`, no `rk_field`):
`pk = str(data.get('id', 'default'))` and `rk = data.get('id',
md5(canonical serialization))` stringified. -/
def getPkRk (serialize : JsonDict → Bytes) (digest : Bytes → String)
    (data : JsonDict) : String × String :=
  let pk := pyStr (jGetD data "id" (JVal.s "default"))
  let rk :=
    if jHas data "id" then pyStr (jGet data "id")
    else digest (serialize data)
  (pk, rk)

/-- `put(model, data)`: derive keys, run the overflow check, store the
resulting record (original or stub) in the primary backend. -/
def put (serialize : JsonDict → Bytes) (digest : Bytes → String)
    (kv : KVStore) (os : ObjStore) (data : JsonDict) : KVStore × ObjStore :=
  let (pk, rk) := getPkRk serialize digest data
  let (storeData, os) := checkOverflow serialize digest os data
  (kvPut kv pk rk storeData, os)

/-- `query(model, query, limit)`: raw rows (the backend honours the
`limit` contract; filters empty here), each overflow-resolved. -/
def queryRows (parse : Bytes → Option JsonDict) (digest : Bytes → String)
    (os : ObjStore) (rows : List JsonDict) (limit : Option Nat) :
    Except String (List JsonDict) :=
  (match limit with
   | some l => rows.take l
   | none => rows).mapM (retrieveOverflow parse digest os)

/-- `query_page(model, query, page_size, continuation_token)` — the
base-class implementation: the token is parsed into `offset`, the
backend is asked for `page_size + 1` rows, an extra row signals
`has_more`, and the next token is `str(offset + page_size)`.
The parsed `offset` is *not* applied to the fetch. -/
def queryPage (parse : Bytes → Option JsonDict) (digest : Bytes → String)
    (os : ObjStore) (rows : List JsonDict) (pageSize : Nat)
    (token : Option String) : Except String (List JsonDict × Option String) := do
  let offset := ((token.bind strToNat).getD 0)
  let results ← queryRows parse digest os rows (some (pageSize + 1))
  let hasMore := results.length > pageSize
  let results := if hasMore then results.take pageSize else results
  let nextToken := if hasMore then some (toString (offset + pageSize)) else none
  return (results, nextToken)

/-! ## Retry decorator (`src/polydb/retry.py`)

`retry(max_attempts, ...)` re-invokes the wrapped callable while it
raises one of the listed exception classes; the `attempt`-th failure
with `attempt + 1 ≥ max_attempts` re-raises.  The callable is modelled
as a fixed `Except` value (the state it reads does not change between
attempts); the second component counts invocations of the body. -/
def retryExec (f : Except String α) : Nat → Option (Except String α) × Nat
  | 0 => (none, 0)
  | remaining + 1 =>
    match f with
    | Except.ok a => (some (Except.ok a), 1)
    | Except.error e =>
      if remaining = 0 then (some (Except.error e), 1)
      else
        let (r, c) := retryExec f remaining
        (r, c + 1)

/-- `_retrieve_overflow` as deployed: wrapped in
`@retry(max_attempts=3, delay=1.0, exceptions=(StorageError,))`. -/
def retrieveOverflowRetried (parse : Bytes → Option JsonDict)
    (digest : Bytes → String) (os : ObjStore) (data : JsonDict) :
    Option (Except String JsonDict) × Nat :=
  retryExec (retrieveOverflow parse digest os data) 3

/-! ## Audit chain (`src/polydb/audit/AuditStorage.py`) -/

/-- The chain-relevant columns of a persisted audit row
(`hash` is `NOT NULL`, `previous_hash` is nullable). -/
structure AuditRow where
  hash : String
  previous_hash : Option String
deriving DecidableEq, Repr

/-- The sequential walk of `verify_chain`: `prev_hash = None`, then for
each record `if record.previous_hash != prev_hash: return False` and
`prev_hash = record.hash`. -/
def verifyChainFrom (prev : Option String) : List AuditRow → Bool
  | [] => true
  | r :: rest =>
    if r.previous_hash ≠ prev then false else verifyChainFrom (some r.hash) rest

/-- `verify_chain(tenant_id)` applied to the tenant's records fetched
ordered by timestamp ascending (the fetch itself is the SQL
collaborator; this function receives that ordered list). -/
def verifyChain (records : List AuditRow) : Bool :=
  verifyChainFrom none records

/-! ## Field encryption (`FieldEncryption._decrypt_value`,
`src/polydb/security.py`)

The AES-GCM + base64 + utf-8 decode steps are the `cryptography`
collaborator, modelled by `decryptRaw`; the trailing `json.loads`
attempt by `jsonParse`.  Crucially, the source strips the
`"encrypted:"` prefix by reassigning `encrypted_data` *inside* the
`try`, so the `except`-branch `return encrypted_data` returns the
prefix-stripped string. -/
def decryptValue (decryptRaw : String → Option String)
    (jsonParse : String → Option JVal) (v : JVal) : JVal :=
  match v with
  | JVal.s str =>
    if strStartsWith str "encrypted:" then
      let stripped := str.drop 10
      match decryptRaw stripped with
      | some plaintext =>
        match jsonParse plaintext with
        | some j => j
        | none => JVal.s plaintext
      | none => JVal.s stripped
    else v
  | _ => v

/-! ## Orchestrator (`DatabaseFactory`, `src/polydb/databaseFactory.py`)

The ambient context is modelled explicitly: `tcTenant` is the
`TenantContext` tenant (read by the `TenantIsolationEnforcer`),
`acTenant` the `AuditContext` fallback; `_current_tenant_id()` prefers
the former.  Optional components (RLS, encryption, Redis cache,
monitoring) are modelled in their default disabled state — none of
them affects the tenant logic under scrutiny. -/
structure OrchCtx where
  tcTenant : Option String := none
  acTenant : Option String := none
  enforcerConfigured : Bool := false
  isolationShared : Bool := true
  softDelete : Bool := false
deriving Repr

/-- `_current_tenant_id()`. -/
def currentTenantId (ctx : OrchCtx) : Option String :=
  ctx.tcTenant <|> ctx.acTenant

/-- `TenantIsolationEnforcer.enforce_write`: raises without a
`TenantContext` tenant; for shared-schema isolation overwrites
`data['tenant_id']`. -/
def enforceWrite (ctx : OrchCtx) (data : JsonDict) : Except String JsonDict :=
  match ctx.tcTenant with
  | none => Except.error "No tenant context set"
  | some t =>
    if ctx.isolationShared then Except.ok (jSet data "tenant_id" (JVal.s t))
    else Except.ok data

/-- `TenantIsolationEnforcer.enforce_read`. -/
def enforceRead (ctx : OrchCtx) (query : JsonDict) : Except String JsonDict :=
  match ctx.tcTenant with
  | none => Except.error "No tenant context set"
  | some t =>
    if ctx.isolationShared then Except.ok (jSet query "tenant_id" (JVal.s t))
    else Except.ok query

/-- `_inject_tenant`: requires `_current_tenant_id()`, `setdefault`s it
into the record. -/
def injectTenant (ctx : OrchCtx) (data : JsonDict) : Except String JsonDict :=
  match currentTenantId ctx with
  | none => Except.error "Tenant ID is required but not set in AuditContext or TenantContext"
  | some t => Except.ok (jSetDefault data "tenant_id" (JVal.s t))

/-- `_inject_audit_fields` (`now` = `datetime.utcnow().isoformat()`,
`actor` = `_current_actor_id()`). -/
def injectAuditFields (data : JsonDict) (isCreate : Bool) (now : String)
    (actor : Option String) : JsonDict :=
  let data :=
    if isCreate then
      let data := if jHas data "created_at" then data else data ++ [("created_at", JVal.s now)]
      match actor with
      | some a => if jHas data "created_by" then data else data ++ [("created_by", JVal.s a)]
      | none => data
    else data
  let data := if jHas data "updated_at" then data else data ++ [("updated_at", JVal.s now)]
  match actor with
  | some a => if jHas data "updated_by" then data else data ++ [("updated_by", JVal.s a)]
  | none => data

/-- The data-preparation pipeline of `create` before storage dispatch:
tenant enforcement (when configured) → `_inject_tenant` →
`_inject_audit_fields(is_create=True)` (RLS/encryption disabled). -/
def createPrep (ctx : OrchCtx) (data : JsonDict) (now : String)
    (actor : Option String) : Except String JsonDict := do
  let data ← if ctx.enforcerConfigured then enforceWrite ctx data else pure data
  let data ← injectTenant ctx data
  pure (injectAuditFields data true now actor)

/-- The data-preparation pipeline of `upsert`: identical shape to
`create` (enforcement → `_inject_tenant` → audit fields with
`is_create=True`). -/
def upsertPrep (ctx : OrchCtx) (data : JsonDict) (now : String)
    (actor : Option String) : Except String JsonDict := do
  let data ← if ctx.enforcerConfigured then enforceWrite ctx data else pure data
  let data ← injectTenant ctx data
  pure (injectAuditFields data true now actor)

/-- The data-preparation pipeline of `update`: audit fields
(`is_create=False`) → tenant enforcement (when configured).
`_inject_tenant` is **not** called. -/
def updatePrep (ctx : OrchCtx) (data : JsonDict) (now : String)
    (actor : Option String) : Except String JsonDict := do
  let data := injectAuditFields data false now actor
  let data ← if ctx.enforcerConfigured then enforceWrite ctx data else pure data
  pure data

/-- The hard-delete path of `delete` performs no tenant check and no
data transformation whatsoever before `_delete_raw`/SQL delete. -/
def deleteHardPrep (_ctx : OrchCtx) : Except String Unit :=
  Except.ok ()

/-- `_apply_soft_delete_filter(query)`: identity when soft delete is
off; otherwise `setdefault('deleted_at', None)` on a copy. -/
def applySoftDeleteFilter (ctx : OrchCtx) (query : Option JsonDict) : JsonDict :=
  if !ctx.softDelete then query.getD []
  else jSetDefault (query.getD []) "deleted_at" JVal.null

/-- The effective storage filter built by `read` (and `read_page`)
before dispatch: the caller's query is replaced by `None` when
`include_deleted` is set, then the soft-delete filter, tenant
enforcement (when configured), and the mandatory
`setdefault('tenant_id', ...)` are applied (RLS disabled). -/
def readQueryPrep (ctx : OrchCtx) (includeDeleted : Bool)
    (query : Option JsonDict) : Except String JsonDict := do
  let query := applySoftDeleteFilter ctx (if !includeDeleted then query else none)
  let query ← if ctx.enforcerConfigured then enforceRead ctx query else pure query
  let query :=
    match currentTenantId ctx with
    | some t => jSetDefault query "tenant_id" (JVal.s t)
    | none => query
  pure query

/-- The filter `_fetch_before` ends up dispatching: it calls
`read_one(model, {'id': entity_id}, no_cache=True, include_deleted=True)`. -/
def fetchBeforeQueryPrep (ctx : OrchCtx) (entityId : JVal) : Except String JsonDict :=
  readQueryPrep ctx true (some [("id", entityId)])

/-! ## Specification-side definitions

Written from the specification's words, to be compared with the
source-side definitions above (refinement claims). -/

namespace Spec

/-- Lexicographic composition of two Bool-valued comparators: compare
by `le₁`, break `le₁`-ties by `le₂`. -/
def lexComp (le₁ le₂ : α → α → Bool) (a b : α) : Bool :=
  if le₁ a b then (if le₁ b a then le₂ a b else true) else false

/-- The comparator of the spec's "stable multi-key sort": the **head**
of the key list is the primary (most significant) key, later keys
break ties. -/
def multiKeyLe : List (String × Bool) → JsonDict → JsonDict → Bool
  | [] => fun _ _ => true
  | fd :: rest => lexComp (sortKeyLe fd) (multiKeyLe rest)

/-- The spec's schemaless pipeline on already-hydrated records, in the
fixed order filter → (count short-circuit) → order → paginate →
project → distinct. -/
def pipeline (b : QueryBuilder) (rows : List JsonDict) : Nat ⊕ List JsonDict :=
  let filtered := applyFilters rows b
  if b.count_only then Sum.inl filtered.length
  else
    Sum.inr
      ((fun r => if b.distinct then dedupCanon r else r)
        (applyProjection
          (applyPagination
            (applyOrdering filtered b) b) b))

/-- The spec's chain invariant on a timestamp-ordered record list:
`record[0].previousHash == null` and
`record[i].previousHash == record[i-1].hash` for every later `i`. -/
def chainInvariant (l : List AuditRow) : Prop :=
  (∀ h0 : 0 < l.length, (l.get ⟨0, h0⟩).previous_hash = none) ∧
  ∀ i, ∀ h : i + 1 < l.length,
    (l.get ⟨i + 1, h⟩).previous_hash = some ((l.get ⟨i, Nat.lt_of_succ_lt h⟩).hash)

end Spec

/-! ## Theorems -/

/-- Evaluation lemma: `mergeSort` on a two-element list. -/
theorem mergeSort_two (le : α → α → Bool) (a b : α) :
    ([a, b] : List α).mergeSort le = if le a b then [a, b] else [b, a] := by
  simp [List.mergeSort, List.splitInTwo, List.splitAt, List.splitAt.go, List.merge]

/-- The sequential walk of `verify_chain` started at an arbitrary
expected predecessor hash succeeds iff the head's `previous_hash` is
that value and every later record links to its predecessor. -/
theorem verifyChainFrom_iff : ∀ (l : List AuditRow) (prev : Option String),
    verifyChainFrom prev l = true ↔
      ((∀ h0 : 0 < l.length, (l.get ⟨0, h0⟩).previous_hash = prev) ∧
       ∀ i, ∀ h : i + 1 < l.length,
         (l.get ⟨i + 1, h⟩).previous_hash = some ((l.get ⟨i, Nat.lt_of_succ_lt h⟩).hash))
  | [], prev => by
      constructor
      · intro _
        exact ⟨fun h0 => absurd h0 (by simp), fun i h => absurd h (by simp)⟩
      · intro _
        rfl
  | r :: rest, prev => by
      rw [verifyChainFrom]
      by_cases hp : r.previous_hash = prev
      · rw [if_neg (by simp [hp])]
        rw [verifyChainFrom_iff rest (some r.hash)]
        constructor
        · rintro ⟨h1, h2⟩
          refine ⟨fun h0 => by simpa using hp, fun i h => ?_⟩
          cases i with
          | zero =>
            have hr : 0 < rest.length := by simpa using h
            simpa using h1 hr
          | succ j =>
            have hr : j + 1 < rest.length := by simpa using h
            simpa using h2 j hr
        · rintro ⟨h1, h2⟩
          constructor
          · intro h0
            have := h2 0 (by simpa using Nat.succ_lt_succ h0)
            simpa using this
          · intro j hj
            have := h2 (j + 1) (by simpa using Nat.succ_lt_succ hj)
            simpa using this
      · rw [if_pos (by simpa using hp)]
        constructor
        · intro hf
          exact absurd hf (by simp)
        · rintro ⟨h1, h2⟩
          exact absurd (by simpa using h1 (by simp)) hp

/-- C2: `verify_chain(tenant_id)` returns `true` iff, walking the
tenant's timestamp-ordered audit records, every record's
`previous_hash` equals the preceding record's `hash` and the first
record's `previous_hash` is null; the empty history is vacuously valid
(the invariant holds trivially), and the function reports only the
boolean, not the break point. -/
theorem verify_chain_iff_invariant (l : List AuditRow) :
    verifyChain l = true ↔ Spec.chainInvariant l := by
  have := verifyChainFrom_iff l none
  rw [verifyChain, Spec.chainInvariant]
  exact this

/-- C3: for every builder and raw result set, `query_linq` resolves
each overflow stub before any pipeline stage (filters only ever see
the hydrated records) and then applies the stages in the fixed order
filter → count short-circuit → order → paginate → project → distinct. -/
theorem queryLinq_eq_spec_pipeline (parse : Bytes → Option JsonDict)
    (digest : Bytes → String) (os : ObjStore) (raw : List JsonDict)
    (b : QueryBuilder) :
    queryLinq parse digest os raw b =
      (raw.mapM (retrieveOverflow parse digest os)).map (Spec.pipeline b) := by
  unfold queryLinq Spec.pipeline
  cases hm : raw.mapM (retrieveOverflow parse digest os) with
  | error e => simp [hm, Except.map, Bind.bind, Except.bind]
  | ok rows =>
    by_cases hc : b.count_only <;>
      simp [hm, hc, Except.map, Bind.bind, Except.bind, Pure.pure, Except.pure]

/-- C5 counterexample: on a store whose blob fails the checksum check,
the deployed (retry-wrapped) `_retrieve_overflow` invokes its body —
and hence the blob fetch — three times, not once, before surfacing the
`StorageError`.  This refutes "surfaced immediately after a single
attempt, with no repeated invocation of the blob fetch". -/
theorem checksum_mismatch_is_retried :
    retrieveOverflowRetried (fun _ => some []) (fun bytes => toString bytes.length)
        [("overflow/k.json", [1, 2, 3])]
        [("_overflow", JVal.b true), ("_blob_key", JVal.s "overflow/k.json"),
         ("_checksum", JVal.s "bad")] =
      (some (Except.error "Overflow retrieval failed: Checksum mismatch on overflow retrieval"), 3) ∧
    (3 : Nat) ≠ 1 := by
  exact ⟨rfl, by decide⟩

/-- C5 amended: a checksum mismatch (like every `StorageError` from
`_retrieve_overflow`) is caught by the `@retry(max_attempts=3,
exceptions=(StorageError,))` decorator: the body is re-invoked three
times in total and the error is surfaced only after the third failure. -/
theorem overflow_error_retried_three_times (parse : Bytes → Option JsonDict)
    (digest : Bytes → String) (os : ObjStore) (data : JsonDict) (e : String)
    (h : retrieveOverflow parse digest os data = Except.error e) :
    retrieveOverflowRetried parse digest os data = (some (Except.error e), 3) := by
  unfold retrieveOverflowRetried
  rw [h]
  rfl

/-- Witness for the retried-error theorem at a concrete corrupted store. -/
theorem overflow_error_retried_three_times_witness :
    retrieveOverflow (fun _ => some [("a", JVal.n 1)]) (fun bytes => toString bytes.length)
        [("overflow/w.json", [7])]
        [("_overflow", JVal.b true), ("_blob_key", JVal.s "overflow/w.json"),
         ("_checksum", JVal.s "nope")] =
      Except.error "Overflow retrieval failed: Checksum mismatch on overflow retrieval" ∧
    retrieveOverflowRetried (fun _ => some [("a", JVal.n 1)]) (fun bytes => toString bytes.length)
        [("overflow/w.json", [7])]
        [("_overflow", JVal.b true), ("_blob_key", JVal.s "overflow/w.json"),
         ("_checksum", JVal.s "nope")] =
      (some (Except.error "Overflow retrieval failed: Checksum mismatch on overflow retrieval"), 3) :=
  ⟨rfl, overflow_error_retried_three_times _ _ _ _ _ rfl⟩

/-- C6: evaluation at the failing input.  The malicious WHERE-clause
field name is rejected by `validate_column_name`, yet
`PostgreSQLAdapter.query_linq` builds (and would execute) the SQL text
with that field interpolated verbatim, raising no `ValidationError`:
the filter fields of `to_sql_where` are never passed through the
validator. -/
theorem linq_where_field_not_validated :
    validateColumnName "name; DROP TABLE users; --" =
      Except.error "Invalid column name: name; DROP TABLE users; --" ∧
    buildLinqSql "users"
        { filters := [⟨"name; DROP TABLE users; --", Operator.EQ, FVal.v (JVal.s "x")⟩] } =
      Except.ok ("SELECT * FROM users WHERE name; DROP TABLE users; -- = %s", [JVal.s "x"]) := by
  exact ⟨rfl, rfl⟩

/-- C7: evaluation at the failing input.  Over `N = 3` records with
`page_size = 2`, the base `query_page` returns the first two rows and
token `"2"`; resuming with that token returns the *same* two rows and
token `"4"` — not the remaining `N − P = 1` row with a null token —
because the parsed `offset` is never applied to the fetch. -/
theorem query_page_ignores_continuation_token :
    queryPage (fun _ => none) (fun _ => "") []
        [[("id", JVal.n 1)], [("id", JVal.n 2)], [("id", JVal.n 3)]] 2 none =
      Except.ok ([[("id", JVal.n 1)], [("id", JVal.n 2)]], some "2") ∧
    queryPage (fun _ => none) (fun _ => "") []
        [[("id", JVal.n 1)], [("id", JVal.n 2)], [("id", JVal.n 3)]] 2 (some "2") =
      Except.ok ([[("id", JVal.n 1)], [("id", JVal.n 2)]], some "4") ∧
    ([[("id", JVal.n 1)], [("id", JVal.n 2)]] : List JsonDict) ≠ [[("id", JVal.n 3)]] := by
  exact ⟨rfl, rfl, by decide⟩

/-- C8 counterexample: with no tenant context at all (and no
isolation enforcer configured, the default), `update` succeeds — it
neither fails nor injects any tenant identifier, refuting "every write
operation requires an active tenant context and fails when none is
set". -/
theorem update_succeeds_without_tenant :
    updatePrep {} [("name", JVal.s "x")] "2026-01-01T00:00:00" none =
      Except.ok [("name", JVal.s "x"), ("updated_at", JVal.s "2026-01-01T00:00:00")] ∧
    jHas [("name", JVal.s "x"), ("updated_at", JVal.s "2026-01-01T00:00:00")] "tenant_id" = false := by
  exact ⟨rfl, rfl⟩

/-- C8 amended: `create` and `upsert` call `_inject_tenant` and
therefore fail without an active tenant context and `setdefault` the
tenant identifier into the record; `update` only injects audit fields
(it never calls `_inject_tenant` and, without a configured isolation
enforcer, succeeds with no tenant context), and the hard-`delete` path
performs no tenant check at all. -/
theorem write_tenant_requirements (data : JsonDict) (now : String)
    (actor : Option String) (t : String) :
    createPrep {} data now actor =
      Except.error "Tenant ID is required but not set in AuditContext or TenantContext" ∧
    upsertPrep {} data now actor =
      Except.error "Tenant ID is required but not set in AuditContext or TenantContext" ∧
    createPrep { acTenant := some t } data now actor =
      Except.ok (injectAuditFields (jSetDefault data "tenant_id" (JVal.s t)) true now actor) ∧
    upsertPrep { acTenant := some t } data now actor =
      Except.ok (injectAuditFields (jSetDefault data "tenant_id" (JVal.s t)) true now actor) ∧
    updatePrep {} data now actor = Except.ok (injectAuditFields data false now actor) ∧
    deleteHardPrep {} = Except.ok () := by
  exact ⟨rfl, rfl, rfl, rfl, rfl, rfl⟩

/-- C9: evaluation at the failing input.  An undecryptable value
carrying the ciphertext marker is returned with the ten-character
`"encrypted:"` prefix *stripped* (the `except` branch returns the
reassigned local), not "the raw stored value unchanged" as the
function's own log message ("Returning original value.") promises. -/
theorem decrypt_failure_returns_stripped_value :
    decryptValue (fun _ => none) (fun _ => none) (JVal.s "encrypted:zzz") = JVal.s "zzz" ∧
    JVal.s "zzz" ≠ JVal.s "encrypted:zzz" := by
  exact ⟨rfl, by decide⟩

/-- C10 counterexample: with soft delete enabled and
`include_deleted=True`, the filter dispatched to storage for a caller
query `{'id': 'e1'}` is exactly `{'deleted_at': None}`: the caller's
query is discarded, but what is kept is *not* only tenant/RLS filters —
`_apply_soft_delete_filter` re-adds the `deleted_at` exclusion even
though `include_deleted` was requested. -/
theorem include_deleted_rebuilt_filter_value :
    readQueryPrep { softDelete := true } true (some [("id", JVal.s "e1")]) =
      Except.ok [("deleted_at", JVal.null)] := by
  rfl

/-- C10 amended: for `include_deleted=True` the caller-supplied query
is discarded entirely before dispatch — the filter is rebuilt from
`None` (soft-delete `deleted_at` marker when enabled, then
tenant/enforcer filters); consequently `_fetch_before`'s lookup
`{'id': entity_id}`, issued with `include_deleted=True`, does not
constrain the rows fetched for the before-snapshot. -/
theorem read_include_deleted_discards_caller_query (ctx : OrchCtx)
    (q : Option JsonDict) (eid : JVal) :
    readQueryPrep ctx true q = readQueryPrep ctx true none ∧
    fetchBeforeQueryPrep ctx eid = readQueryPrep ctx true none := by
  exact ⟨rfl, rfl⟩

/-- Evaluation of `_retrieve_overflow` on an overflow stub (the stub's
literal keys reduce; blob, parse and digest stay symbolic). -/
theorem retrieveOverflow_stub (parse : Bytes → Option JsonDict)
    (digest : Bytes → String) (os : ObjStore) (k c : String) (sz : JVal) :
    retrieveOverflow parse digest os
        [("_overflow", JVal.b true), ("_blob_key", JVal.s k),
         ("_size", sz), ("_checksum", JVal.s c)] =
      match osGet os k with
      | none => Except.error "Overflow retrieval failed: blob not found"
      | some blobData =>
        match parse blobData with
        | none => Except.error "Overflow retrieval failed: invalid JSON"
        | some retrieved =>
          if !pyEq (JVal.s (digest blobData)) (JVal.s c) then
            Except.error "Overflow retrieval failed: Checksum mismatch on overflow retrieval"
          else Except.ok retrieved := rfl

/-- C1: overflow round-trip.  For a record whose canonical
serialization exceeds `max_size`, `_check_overflow` (called by `put`)
stores the raw bytes under `overflow/{digest}.json` and produces the
`{_overflow, _blob_key, _size, _checksum}` stub in place of the
record; `_retrieve_overflow` on that stub returns exactly the original
payload; and if the stored blob bytes are replaced by bytes whose
digest differs from the stub's `_checksum`, the read surfaces a
`StorageError` instead of returning data. -/
theorem overflow_roundtrip (serialize : JsonDict → Bytes)
    (parse : Bytes → Option JsonDict) (digest : Bytes → String)
    (os : ObjStore) (kv : KVStore) (data : JsonDict)
    (hbig : (serialize data).length > maxSize)
    (hparse : parse (serialize data) = some data) :
    (checkOverflow serialize digest os data).1 =
      [("_overflow", JVal.b true),
       ("_blob_key", JVal.s ("overflow/" ++ digest (serialize data) ++ ".json")),
       ("_size", JVal.n (serialize data).length),
       ("_checksum", JVal.s (digest (serialize data)))] ∧
    osGet (checkOverflow serialize digest os data).2
        ("overflow/" ++ digest (serialize data) ++ ".json") = some (serialize data) ∧
    kvGet (put serialize digest kv os data).1
        (getPkRk serialize digest data).1 (getPkRk serialize digest data).2 =
      some (checkOverflow serialize digest os data).1 ∧
    retrieveOverflow parse digest (checkOverflow serialize digest os data).2
        (checkOverflow serialize digest os data).1 = Except.ok data ∧
    (∀ corrupted : Bytes, digest corrupted ≠ digest (serialize data) →
      ∃ msg, retrieveOverflow parse digest
        (osPut (checkOverflow serialize digest os data).2
          ("overflow/" ++ digest (serialize data) ++ ".json") corrupted)
        (checkOverflow serialize digest os data).1 = Except.error msg) := by
  have hstub : (checkOverflow serialize digest os data).1 =
      [("_overflow", JVal.b true),
       ("_blob_key", JVal.s ("overflow/" ++ digest (serialize data) ++ ".json")),
       ("_size", JVal.n (serialize data).length),
       ("_checksum", JVal.s (digest (serialize data)))] := by
    unfold checkOverflow
    rw [if_pos hbig]
  have hos : (checkOverflow serialize digest os data).2 =
      osPut os ("overflow/" ++ digest (serialize data) ++ ".json") (serialize data) := by
    unfold checkOverflow
    rw [if_pos hbig]
  have hosget : ∀ blob : Bytes, ∀ os' : ObjStore,
      osGet (osPut os' ("overflow/" ++ digest (serialize data) ++ ".json") blob)
        ("overflow/" ++ digest (serialize data) ++ ".json") = some blob := by
    intro blob os'
    simp [osGet, osPut]
  refine ⟨hstub, ?_, ?_, ?_, ?_⟩
  · rw [hos]
    exact hosget _ _
  · unfold put
    simp only [kvGet, kvPut]
    rw [List.find?_cons_of_pos _ (by simp)]
    have : (checkOverflow serialize digest os data) =
        ((checkOverflow serialize digest os data).1, (checkOverflow serialize digest os data).2) := rfl
    simp
  · rw [hstub, hos, retrieveOverflow_stub, hosget]
    simp [hparse, pyEq]
  · intro corrupted hcor
    rw [hstub, hos, retrieveOverflow_stub, hosget]
    cases hp : parse corrupted with
    | none =>
      exact ⟨"Overflow retrieval failed: invalid JSON", by simp [hp]⟩
    | some r =>
      exact ⟨"Overflow retrieval failed: Checksum mismatch on overflow retrieval",
        by simp [hp, pyEq, hcor]⟩

/-- Witness for the overflow round-trip at a concrete oversized
payload (a constant 1 MiB + 1 serializer, a length-keyed parser and a
length digest). -/
theorem overflow_roundtrip_witness :
    ((fun (_ : JsonDict) => List.replicate 1048577 (0 : Nat)) [("id", JVal.s "big")]).length > maxSize ∧
    (fun (bytes : Bytes) =>
        if bytes.length = 1048577 then some ([("id", JVal.s "big")] : JsonDict) else none)
      ((fun (_ : JsonDict) => List.replicate 1048577 (0 : Nat)) [("id", JVal.s "big")]) =
      some [("id", JVal.s "big")] ∧
    retrieveOverflow
        (fun (bytes : Bytes) =>
          if bytes.length = 1048577 then some ([("id", JVal.s "big")] : JsonDict) else none)
        (fun bytes => toString bytes.length)
        (checkOverflow (fun _ => List.replicate 1048577 0) (fun bytes => toString bytes.length)
          [] [("id", JVal.s "big")]).2
        (checkOverflow (fun _ => List.replicate 1048577 0) (fun bytes => toString bytes.length)
          [] [("id", JVal.s "big")]).1 = Except.ok [("id", JVal.s "big")] := by
  have h1 : ((fun (_ : JsonDict) => List.replicate 1048577 (0 : Nat)) [("id", JVal.s "big")]).length > maxSize := by
    show (List.replicate 1048577 (0 : Nat)).length > maxSize
    rw [List.length_replicate]
    norm_num [maxSize]
  have h2 : (fun (bytes : Bytes) =>
      if bytes.length = 1048577 then some ([("id", JVal.s "big")] : JsonDict) else none)
      ((fun (_ : JsonDict) => List.replicate 1048577 (0 : Nat)) [("id", JVal.s "big")]) =
      some [("id", JVal.s "big")] := by
    show (if (List.replicate 1048577 (0 : Nat)).length = 1048577 then
      some ([("id", JVal.s "big")] : JsonDict) else none) = some [("id", JVal.s "big")]
    rw [List.length_replicate, if_pos rfl]
  exact ⟨h1, h2,
    (overflow_roundtrip (fun _ => List.replicate 1048577 0)
      (fun bytes => if bytes.length = 1048577 then some [("id", JVal.s "big")] else none)
      (fun bytes => toString bytes.length) [] [] [("id", JVal.s "big")] h1 h2).2.2.2.1⟩

/-! ### Comparator properties for the multi-key sort analysis -/

/-- The sort-key order is total. -/
theorem jvalLe_total : TotalB jvalLe := by
  intro x y
  cases x <;> cases y <;>
    simp [jvalLe, jRank, jNum, jStr] <;>
    first
      | omega
      | exact le_total _ _

/-- The sort-key order is transitive. -/
theorem jvalLe_trans : TransB jvalLe := by
  intro a b c hab hbc
  cases a <;> cases b <;> cases c <;>
    simp_all [jvalLe, jRank, jNum, jStr] <;>
    first
      | omega
      | exact le_trans hab hbc

/-- Each single-key comparator of `_apply_ordering` is total. -/
theorem sortKeyLe_total (fd : String × Bool) : TotalB (sortKeyLe fd) := by
  intro a b
  unfold sortKeyLe
  by_cases hd : fd.2
  · rw [if_pos hd, if_pos hd]
    exact jvalLe_total _ _
  · rw [if_neg hd, if_neg hd]
    exact jvalLe_total _ _

/-- Each single-key comparator of `_apply_ordering` is transitive. -/
theorem sortKeyLe_trans (fd : String × Bool) : TransB (sortKeyLe fd) := by
  intro a b c hab hbc
  unfold sortKeyLe at *
  by_cases hd : fd.2
  · rw [if_pos hd] at *
    exact jvalLe_trans _ _ _ hbc hab
  · rw [if_neg hd] at *
    exact jvalLe_trans _ _ _ hab hbc

/-- Lexicographic composition preserves transitivity (given totality of
the primary comparator). -/
theorem lexComp_trans {le₁ le₂ : α → α → Bool} (t1 : TransB le₁)
    (t2 : TransB le₂) : TransB (Spec.lexComp le₁ le₂) := by
  intro a b c hab hbc
  unfold Spec.lexComp at *
  by_cases h1 : le₁ a b = true
  · by_cases h2 : le₁ b c = true
    · have h3 : le₁ a c = true := t1 _ _ _ h1 h2
      rw [if_pos h1] at hab
      rw [if_pos h2] at hbc
      rw [if_pos h3]
      by_cases h4 : le₁ c a = true
      · rw [if_pos h4]
        have hba : le₁ b a = true := t1 _ _ _ h2 h4
        have hcb : le₁ c b = true := t1 _ _ _ h4 h1
        rw [if_pos hba] at hab
        rw [if_pos hcb] at hbc
        exact t2 _ _ _ hab hbc
      · rw [if_neg h4]
    · rw [if_neg h2] at hbc
      cases hbc
  · rw [if_neg h1] at hab
    cases hab

/-- Lexicographic composition preserves totality. -/
theorem lexComp_total {le₁ le₂ : α → α → Bool} (tot1 : TotalB le₁)
    (tot2 : TotalB le₂) : TotalB (Spec.lexComp le₁ le₂) := by
  intro a b
  unfold Spec.lexComp
  by_cases h1 : le₁ a b = true <;> by_cases h2 : le₁ b a = true
  · rw [if_pos h1, if_pos h2, if_pos h2, if_pos h1]
    exact tot2 a b
  · rw [if_pos h1, if_neg h2]
    simp
  · rw [if_neg h1, if_pos h2, if_neg h1]
    simp
  · rcases Bool.or_eq_true _ _ |>.mp (tot1 a b) with h | h
    · exact absurd h h1
    · exact absurd h h2

/-- The spec's multi-key comparator is transitive. -/
theorem multiKeyLe_trans : ∀ ks : List (String × Bool), TransB (Spec.multiKeyLe ks)
  | [] => fun _ _ _ _ _ => rfl
  | fd :: rest => by
    rw [Spec.multiKeyLe]
    exact lexComp_trans (sortKeyLe_trans fd) (multiKeyLe_trans rest)

/-- The spec's multi-key comparator is total. -/
theorem multiKeyLe_total : ∀ ks : List (String × Bool), TotalB (Spec.multiKeyLe ks)
  | [] => fun _ _ => rfl
  | fd :: rest => by
    rw [Spec.multiKeyLe]
    exact lexComp_total (sortKeyLe_total fd) (multiKeyLe_total rest)

/-- Two distinct members of a list occur as a pair sublist in one of
the two orders. -/
theorem pair_sublist_of_mem {a b : α} : ∀ {l : List α},
    a ∈ l → b ∈ l → a ≠ b → [a, b] <+ l ∨ [b, a] <+ l := by
  intro l
  induction l with
  | nil => intro ha; cases ha
  | cons x t ih =>
    intro ha hb hne
    by_cases hxa : x = a
    · subst hxa
      have hbt : b ∈ t := by
        rcases List.mem_cons.mp hb with h | h
        · exact absurd h.symm hne
        · exact h
      exact Or.inl (List.Sublist.cons₂ x (List.singleton_sublist.mpr hbt))
    · by_cases hxb : x = b
      · subst hxb
        have hat : a ∈ t := by
          rcases List.mem_cons.mp ha with h | h
          · exact absurd h hne
          · exact h
        exact Or.inr (List.Sublist.cons₂ x (List.singleton_sublist.mpr hat))
      · have hat : a ∈ t := by
          rcases List.mem_cons.mp ha with h | h
          · exact absurd h.symm hxa
          · exact h
        have hbt : b ∈ t := by
          rcases List.mem_cons.mp hb with h | h
          · exact absurd h.symm hxb
          · exact h
        rcases ih hat hbt hne with h | h
        · exact Or.inl (h.cons x)
        · exact Or.inr (h.cons x)

/-- In a duplicate-free list a pair cannot occur as a sublist in both
orders unless its components are equal. -/
theorem pair_sublist_antisymm {a b : α} : ∀ {l : List α},
    l.Nodup → [a, b] <+ l → [b, a] <+ l → a = b := by
  intro l
  induction l with
  | nil => intro _ h; cases h
  | cons x t ih =>
    intro hnd hab hba
    cases hab with
    | cons _ hab' =>
      cases hba with
      | cons _ hba' => exact ih (List.nodup_cons.mp hnd).2 hab' hba'
      | cons₂ hba' =>
        have hbt : b ∈ t := hab'.subset (by simp)
        exact absurd hbt (List.nodup_cons.mp hnd).1
    | cons₂ hab' =>
      cases hba with
      | cons _ hba' =>
        have hat : a ∈ t := hba'.subset (by simp)
        exact absurd hat (List.nodup_cons.mp hnd).1
      | cons₂ hba' => rfl

/-- Composition of stable sorts: stably sorting by `le₂` and then by
`le₁` equals one stable sort by the lexicographic composition with
`le₁` primary.  (Proved through the enumeration characterization of
stability: both sides are the unique permutation sorted by the
index-tie-broken lexicographic order.) -/
theorem mergeSort_mergeSort_eq_lex {le₁ le₂ : α → α → Bool}
    (t1 : TransB le₁) (tot1 : TotalB le₁) (t2 : TransB le₂) (tot2 : TotalB le₂)
    (l : List α) :
    (l.mergeSort le₂).mergeSort le₁ = l.mergeSort (Spec.lexComp le₁ le₂) := by
  have tlex : TransB (Spec.lexComp le₁ le₂) := lexComp_trans t1 t2
  have totlex : TotalB (Spec.lexComp le₁ le₂) := lexComp_total tot1 tot2
  have hnodupFst : ((l.enum).map Prod.fst).Nodup := by
    rw [List.enum_map_fst]
    exact List.nodup_range _
  have hinj := List.inj_on_of_nodup_map hnodupFst
  have hEnodup : (l.enum).Nodup := List.Nodup.of_map _ hnodupFst
  set M := (l.enum).mergeSort (List.enumLE le₂) with hM
  set r : Nat × α → Nat × α → Bool := fun a b => le₁ a.2 b.2 with hr
  have tr : TransB r := fun a b c hab hbc => t1 _ _ _ hab hbc
  have totr : TotalB r := fun a b => tot1 a.2 b.2
  set X := M.mergeSort r with hX
  set Y := (l.enum).mergeSort (List.enumLE (Spec.lexComp le₁ le₂)) with hY
  have pXM : X ~ M := List.mergeSort_perm M r
  have pME : M ~ l.enum := List.mergeSort_perm _ _
  have pXE : X ~ l.enum := pXM.trans pME
  have pYE : Y ~ l.enum := List.mergeSort_perm _ _
  have sortM : M.Pairwise (fun a b => List.enumLE le₂ a b = true) :=
    List.sorted_mergeSort (List.enumLE_trans t2) (List.enumLE_total tot2) _
  have sortY : Y.Pairwise (fun a b => List.enumLE (Spec.lexComp le₁ le₂) a b = true) :=
    List.sorted_mergeSort (List.enumLE_trans tlex) (List.enumLE_total totlex) _
  have sortXr : X.Pairwise (fun a b => r a b = true) := List.sorted_mergeSort tr totr _
  have hXnodup : X.Nodup := hEnodup.perm pXE.symm
  have sortX : X.Pairwise (fun a b => List.enumLE (Spec.lexComp le₁ le₂) a b = true) := by
    rw [List.pairwise_iff_forall_sublist]
    intro a b hab
    have hrab : le₁ a.2 b.2 = true := List.pairwise_iff_forall_sublist.mp sortXr hab
    by_cases hba : le₁ b.2 a.2 = true
    · have hne : a ≠ b := by
        rintro rfl
        exact (List.nodup_iff_sublist.mp hXnodup a) hab
      have haM : a ∈ M := pXM.subset (hab.subset (by simp))
      have hbM : b ∈ M := pXM.subset (hab.subset (by simp))
      rcases pair_sublist_of_mem haM hbM hne with hM2 | hM2
      · have hlink : List.enumLE le₂ a b = true :=
          List.pairwise_iff_forall_sublist.mp sortM hM2
        have e1 : Spec.lexComp le₁ le₂ a.2 b.2 = le₂ a.2 b.2 := by
          unfold Spec.lexComp
          rw [if_pos hrab, if_pos hba]
        have e2 : Spec.lexComp le₁ le₂ b.2 a.2 = le₂ b.2 a.2 := by
          unfold Spec.lexComp
          rw [if_pos hba, if_pos hrab]
        unfold List.enumLE at hlink ⊢
        rw [e1, e2]
        exact hlink
      · have hstab : [b, a] <+ X := List.pair_sublist_mergeSort tr totr hba hM2
        exact absurd (pair_sublist_antisymm hXnodup hab hstab) hne
    · have e1 : Spec.lexComp le₁ le₂ a.2 b.2 = true := by
        unfold Spec.lexComp
        rw [if_pos hrab, if_neg hba]
      have e2 : Spec.lexComp le₁ le₂ b.2 a.2 = false := by
        unfold Spec.lexComp
        rw [if_neg hba]
      unfold List.enumLE
      rw [e1, e2]
      simp
  have key : X = Y := by
    have w : ∀ a b, a ∈ X → b ∈ Y →
        List.enumLE (Spec.lexComp le₁ le₂) a b = true →
        List.enumLE (Spec.lexComp le₁ le₂) b a = true → a = b := by
      intro a b haX hbY h1 h2
      have haE : a ∈ l.enum := pXE.subset haX
      have hbE : b ∈ l.enum := pYE.subset hbY
      apply hinj haE hbE
      unfold List.enumLE at h1 h2
      by_cases q1 : Spec.lexComp le₁ le₂ a.2 b.2 = true <;>
        by_cases q2 : Spec.lexComp le₁ le₂ b.2 a.2 = true
      all_goals simp [q1, q2] at h1 h2 ⊢
      all_goals omega
    exact List.Perm.eq_of_sorted w sortX sortY (pXE.trans pYE.symm)
  have step1 : l.mergeSort le₂ = M.map (fun p => p.2) := (List.mergeSort_enum).symm
  have step2 : (M.mergeSort r).map (fun p => p.2) =
      (M.map (fun p => p.2)).mergeSort le₁ :=
    List.map_mergeSort (fun _ _ _ _ => rfl)
  have step3 : Y.map (fun p => p.2) = l.mergeSort (Spec.lexComp le₁ le₂) :=
    List.mergeSort_enum
  rw [step1, ← step2, show M.mergeSort r = Y from key]
  exact step3

/-- C4 counterexample: with `order_by("a")` then `order_by("b")` (both
ascending) over records `{a:0, b:1}` and `{a:1, b:0}`, `_apply_ordering`
returns the records ordered by `a` — the *first* `order_by` call — while
the claim's "stable multi-key sort with the last `order_by` call
primary" would order them by `b`, giving the opposite order. -/
theorem last_order_by_call_is_not_primary :
    applyOrdering
        [[("a", JVal.n 0), ("b", JVal.n 1)], [("a", JVal.n 1), ("b", JVal.n 0)]]
        { order_by_fields := [("a", false), ("b", false)] } =
      [[("a", JVal.n 0), ("b", JVal.n 1)], [("a", JVal.n 1), ("b", JVal.n 0)]] ∧
    ([[("a", JVal.n 0), ("b", JVal.n 1)], [("a", JVal.n 1), ("b", JVal.n 0)]] :
        List JsonDict).mergeSort (Spec.multiKeyLe [("b", false), ("a", false)]) =
      [[("a", JVal.n 1), ("b", JVal.n 0)], [("a", JVal.n 0), ("b", JVal.n 1)]] ∧
    ([[("a", JVal.n 0), ("b", JVal.n 1)], [("a", JVal.n 1), ("b", JVal.n 0)]] :
        List JsonDict) ≠
      [[("a", JVal.n 1), ("b", JVal.n 0)], [("a", JVal.n 0), ("b", JVal.n 1)]] := by
  refine ⟨?_, ?_, by decide⟩
  · unfold applyOrdering
    rw [if_neg (by decide)]
    show (([[("a", JVal.n 0), ("b", JVal.n 1)],
        [("a", JVal.n 1), ("b", JVal.n 0)]] : List JsonDict).mergeSort
          (sortKeyLe ("b", false))).mergeSort (sortKeyLe ("a", false)) = _
    rw [mergeSort_two]
    rw [if_neg (by decide)]
    rw [mergeSort_two]
    rw [if_neg (by decide)]
  · rw [mergeSort_two]
    rw [if_neg (by decide)]

/-- C4 (amended): `_apply_ordering` computes the stable multi-key sort
in which the **first** `order_by` call supplies the primary (most
significant) key: iterating `reversed(order_by_fields)` applies the
last-called sort first, making it least significant. -/
theorem apply_ordering_is_first_call_primary_multikey_sort
    (b : QueryBuilder) (rows : List JsonDict) :
    applyOrdering rows b = rows.mergeSort (Spec.multiKeyLe b.order_by_fields) := by
  suffices h : ∀ ks : List (String × Bool), ∀ rows : List JsonDict,
      ks.reverse.foldl (fun res fd => res.mergeSort (sortKeyLe fd)) rows =
        rows.mergeSort (Spec.multiKeyLe ks) by
    unfold applyOrdering
    by_cases he : b.order_by_fields = []
    · rw [if_pos he, he]
      symm
      exact List.mergeSort_of_sorted
        (List.pairwise_iff_forall_sublist.mpr (fun _ => rfl))
    · rw [if_neg he]
      exact h _ _
  intro ks
  induction ks with
  | nil =>
    intro rows
    simp only [List.reverse_nil, List.foldl_nil]
    symm
    exact List.mergeSort_of_sorted
      (List.pairwise_iff_forall_sublist.mpr (fun _ => rfl))
  | cons fd rest ih =>
    intro rows
    rw [List.reverse_cons, List.foldl_append]
    simp only [List.foldl_cons, List.foldl_nil]
    rw [ih rows, Spec.multiKeyLe]
    exact mergeSort_mergeSort_eq_lex (sortKeyLe_trans fd) (sortKeyLe_total fd)
      (multiKeyLe_trans rest) (multiKeyLe_total rest) rows

end PolyDB
